import Mathlib

/-!
Shallow embedding of the Virtual-Event-Management-Platform record store
(src/models/User.js and the Event model file) together with the JWT
authentication middleware, and proofs about the embedded operations.

JavaScript conventions modelled explicitly:
* `Date` values are wrapped in `DateVal`: a field that holds a live `Date`
  object is `DateVal.date t` (t an abstract timestamp), a field that holds
  the JSON-serialized string form is `DateVal.str s`.
* `null`/`undefined` optional fields are `Option _`; a patch field that may
  itself be set to `null` is `Option (Option _)` (outer `none` = absent).
* JS truthiness for numbers: `null` and `0` are falsy, everything else truthy.
* JS truthiness for strings: `""` is falsy.
* Thrown errors become `Except.error`; every store operation returns the
  result together with the post-state list, and mirrors the source's
  statement order (all checks precede all mutations, so an error leaves the
  state exactly as it was).
-/

/-- DateVal models a JS field that is either a live Date object (carrying an
abstract integer timestamp) or the string a Date serializes to in JSON. -/
inductive DateVal where
  | date (t : Nat)
  | str (s : String)
deriving DecidableEq, Repr

/-- Model of `Date.prototype.toISOString` as used by `JSON.stringify`: an
injective textual encoding of the timestamp. A field already holding a
string is written out unchanged. -/
def DateVal.serialize : DateVal → String
  | .date t => toString t
  | .str s => s

/-- Model of `new Date(s)` applied to a string produced by
`DateVal.serialize`: recovers the timestamp by reading the decimal
digits. -/
def parseDateStr (s : String) : Nat :=
  s.data.foldl (fun acc c => acc * 10 + (c.toNat - 48)) 0

/-- Decidable equality for `Except`, so that concrete operation outcomes can
be checked by `decide`. -/
instance {ε α : Type} [DecidableEq ε] [DecidableEq α] :
    DecidableEq (Except ε α)
  | .error a, .error b =>
    if h : a = b then isTrue (by rw [h])
    else isFalse (fun hc => h (Except.error.inj hc))
  | .error _, .ok _ => isFalse (fun hc => Except.noConfusion hc)
  | .ok _, .error _ => isFalse (fun hc => Except.noConfusion hc)
  | .ok x, .ok y =>
    if h : x = y then isTrue (by rw [h])
    else isFalse (fun hc => h (Except.ok.inj hc))

/-- Typed error taxonomy of the store layer; each constructor corresponds to
one `throw new Error(...)` message in the source. -/
inductive StoreError where
  | notFound            -- 'Event not found' / 'User not found'
  | unauthorized        -- 'Unauthorized: Only the event organizer can ...'
  | duplicateKey        -- 'Email already exists'
  | eventFull           -- 'Event is full'
  | alreadyRegistered   -- 'User is already registered for this event'
  | notRegistered       -- 'User is not registered for this event'
deriving DecidableEq, Repr

/-- Event record, fields exactly those set by the `Event` constructor. -/
structure Event where
  id : String
  title : String
  description : String
  date : DateVal
  time : String
  duration : Int
  maxParticipants : Option Int   -- null = unlimited
  organizerId : String
  participants : List String     -- array of user ids, insertion order
  status : String
  category : String
  isPublic : Bool
  meetingLink : Option String
  createdAt : DateVal
  updatedAt : DateVal
deriving DecidableEq, Repr

/-- Translation of the guard
`this.maxParticipants && this.participants.length >= this.maxParticipants`
with JS truthiness: `null` and `0` are falsy, so a `0` bound disables the
check. -/
def Event.atCapacity (e : Event) : Bool :=
  match e.maxParticipants with
  | none => false
  | some n => n != 0 && decide (n ≤ (e.participants.length : Int))

/-- Event.addParticipant: capacity check, then duplicate check, then append
and refresh `updatedAt`. Both throws happen before any mutation. -/
def Event.addParticipant (e : Event) (userId : String) (now : Nat) :
    Except StoreError Event :=
  if e.atCapacity then
    .error .eventFull
  else if e.participants.contains userId then
    .error .alreadyRegistered
  else
    .ok { e with participants := e.participants ++ [userId],
                 updatedAt := .date now }

/-- Event.removeParticipant: `indexOf` then `splice(index, 1)` removes the
first occurrence; absent member throws before any mutation. -/
def Event.removeParticipant (e : Event) (userId : String) (now : Nat) :
    Except StoreError Event :=
  if e.participants.contains userId then
    .ok { e with participants := e.participants.erase userId,
                 updatedAt := .date now }
  else
    .error .notRegistered

/-- Event.getAvailableSpots: `if (!this.maxParticipants) return null` —
both `null` and `0` are falsy — else the bound minus the count. -/
def Event.getAvailableSpots (e : Event) : Option Int :=
  match e.maxParticipants with
  | none => none
  | some n => if n = 0 then none else some (n - (e.participants.length : Int))

/-- Patch accepted by `Event.update`; outer `none` = field absent
(`undefined`), which the source skips. `maxParticipants` and `meetingLink`
may be explicitly set to `null` (inner `none`). The `date` field arrives as
a date value (Joi has already converted it) and is re-wrapped with
`new Date(...)` by the source, hence is carried here as a timestamp. -/
structure EventPatch where
  title : Option String := none
  description : Option String := none
  date : Option Nat := none
  time : Option String := none
  duration : Option Int := none
  maxParticipants : Option (Option Int) := none
  status : Option String := none
  category : Option String := none
  isPublic : Option Bool := none
  meetingLink : Option (Option String) := none
deriving Repr

/-- Event.update: for each allowed field present in the patch, assign it
(`date` through `new Date`), then refresh `updatedAt`. No check relates
`maxParticipants` to the current participant count. -/
def Event.update (e : Event) (p : EventPatch) (now : Nat) : Event :=
  { e with
    title := p.title.getD e.title
    description := p.description.getD e.description
    date := match p.date with | some t => .date t | none => e.date
    time := p.time.getD e.time
    duration := p.duration.getD e.duration
    maxParticipants := p.maxParticipants.getD e.maxParticipants
    status := p.status.getD e.status
    category := p.category.getD e.category
    isPublic := p.isPublic.getD e.isPublic
    meetingLink := p.meetingLink.getD e.meetingLink
    updatedAt := .date now }

/-- Replacement of the first element whose key matches, modelling in-place
mutation of the object returned by `Array.prototype.find`. -/
def setFirstBy {α : Type} (key : α → String) : List α → String → α → List α
  | [], _, _ => []
  | a :: l, k, x => if key a == k then x :: l else a :: setFirstBy key l k x

/-- Removal of the first element whose key matches, modelling
`findIndex` followed by `splice(index, 1)`. -/
def eraseFirstBy {α : Type} (key : α → String) : List α → String → List α
  | [], _ => []
  | a :: l, k => if key a == k then l else a :: eraseFirstBy key l k

/-- EventStore.findById: linear scan by exact id. -/
def EventStore.findById (events : List Event) (id : String) : Option Event :=
  events.find? (fun ev => ev.id == id)

/-- EventStore.registerParticipant: locate the event, delegate to
`addParticipant`, propagate its failure unchanged. -/
def EventStore.registerParticipant (events : List Event)
    (eventId userId : String) (now : Nat) :
    Except StoreError Event × List Event :=
  match events.find? (fun ev => ev.id == eventId) with
  | none => (.error .notFound, events)
  | some e =>
    match e.addParticipant userId now with
    | .error err => (.error err, events)
    | .ok e' => (.ok e', setFirstBy Event.id events eventId e')

/-- EventStore.unregisterParticipant: locate the event, delegate to
`removeParticipant`, propagate its failure unchanged. -/
def EventStore.unregisterParticipant (events : List Event)
    (eventId userId : String) (now : Nat) :
    Except StoreError Event × List Event :=
  match events.find? (fun ev => ev.id == eventId) with
  | none => (.error .notFound, events)
  | some e =>
    match e.removeParticipant userId now with
    | .error err => (.error err, events)
    | .ok e' => (.ok e', setFirstBy Event.id events eventId e')

/-- EventStore.update: not-found check, organizer check, then delegate to
`Event.update`; both throws precede the mutation. -/
def EventStore.update (events : List Event) (id : String) (p : EventPatch)
    (userId : String) (now : Nat) :
    Except StoreError Event × List Event :=
  match events.find? (fun ev => ev.id == id) with
  | none => (.error .notFound, events)
  | some e =>
    if e.organizerId ≠ userId then
      (.error .unauthorized, events)
    else
      let e' := e.update p now
      (.ok e', setFirstBy Event.id events id e')

/-- EventStore.delete: `findIndex`, not-found check, organizer check, then
`splice` out the first match. -/
def EventStore.delete (events : List Event) (id : String)
    (userId : String) : Except StoreError Unit × List Event :=
  match events.find? (fun ev => ev.id == id) with
  | none => (.error .notFound, events)
  | some e =>
    if e.organizerId ≠ userId then
      (.error .unauthorized, events)
    else
      (.ok (), eraseFirstBy Event.id events id)

/-- Model of `String.prototype.toLowerCase` on the character data of a
string. -/
def lowerStr (s : String) : String := ⟨s.data.map Char.toLower⟩

/-- Model of `String.prototype.trim`: drop whitespace from both ends. -/
def trimStr (s : String) : String :=
  ⟨((s.data.dropWhile Char.isWhitespace).reverse.dropWhile
      Char.isWhitespace).reverse⟩

/-- User record, fields exactly those set by the `User` constructor.
`password` is `Option` because rehydration from disk drops it (`toJSON`
strips it before serialization), leaving the property `undefined`. -/
structure User where
  id : String
  email : String
  password : Option String
  firstName : String
  lastName : String
  role : String
  createdAt : DateVal
  updatedAt : DateVal
  isActive : Bool
deriving DecidableEq, Repr

/-- Input accepted by `UserStore.create` (validated request body). -/
structure UserData where
  email : String
  password : String
  firstName : String
  lastName : String
  role : Option String := none
deriving Repr

/-- Model of `userData.role || 'attendee'` (JS `||`: `undefined` and `""`
fall back). -/
def jsOrStr (v : Option String) (dflt : String) : String :=
  match v with
  | none => dflt
  | some s => if s == "" then dflt else s

/-- UserStore.create: case-insensitive duplicate-email check over the whole
collection, then construct the user (email stored verbatim, password
replaced by its bcrypt hash — abstracted as the `hashed` argument since the
salt is fresh per call), then append. The throw precedes the append. -/
def UserStore.create (users : List User) (d : UserData)
    (newId hashed : String) (now : Nat) :
    Except StoreError User × List User :=
  match users.find? (fun u => lowerStr u.email == lowerStr d.email) with
  | some _ => (.error .duplicateKey, users)
  | none =>
    let u : User :=
      { id := newId, email := d.email, password := some hashed,
        firstName := d.firstName, lastName := d.lastName,
        role := jsOrStr d.role "attendee",
        createdAt := .date now, updatedAt := .date now, isActive := true }
    (.ok u, users ++ [u])

/-- UserStore.findById: linear scan by exact id. -/
def UserStore.findById (users : List User) (id : String) : Option User :=
  users.find? (fun u => u.id == id)

/-- UserStore.findByEmail: linear scan comparing lowercased emails. -/
def UserStore.findByEmail (users : List User) (email : String) : Option User :=
  users.find? (fun u => lowerStr u.email == lowerStr email)

/-- Patch accepted by `UserStore.update`; `none` = field absent. -/
structure UserPatch where
  firstName : Option String := none
  lastName : Option String := none
  email : Option String := none
deriving Repr

/-- User.update: assign each allowed field present in the patch, refresh
`updatedAt`. -/
def User.update (u : User) (p : UserPatch) (now : Nat) : User :=
  { u with
    firstName := p.firstName.getD u.firstName
    lastName := p.lastName.getD u.lastName
    email := p.email.getD u.email
    updatedAt := .date now }

/-- UserStore.update: not-found check; then, when the patch carries a
truthy email that differs from the user's current email as an exact string,
a case-insensitive duplicate scan over ALL users (the user themself
included); then delegate to `User.update`. -/
def UserStore.update (users : List User) (id : String) (p : UserPatch)
    (now : Nat) : Except StoreError User × List User :=
  match users.find? (fun u => u.id == id) with
  | none => (.error .notFound, users)
  | some u =>
    match p.email with
    | some e =>
      if e ≠ "" ∧ e ≠ u.email then
        match users.find? (fun v => lowerStr v.email == lowerStr e) with
        | some _ => (.error .duplicateKey, users)
        | none =>
          let u' := u.update p now
          (.ok u', setFirstBy User.id users id u')
      else
        let u' := u.update p now
        (.ok u', setFirstBy User.id users id u')
    | none =>
      let u' := u.update p now
      (.ok u', setFirstBy User.id users id u')

/-- Model of the register controller's call into the store: it normalizes
the email with `email.toLowerCase().trim()` (and trims the names) before
invoking `UserStore.create`. -/
def AuthController.registerCreate (users : List User) (d : UserData)
    (newId hashed : String) (now : Nat) :
    Except StoreError User × List User :=
  UserStore.create users
    { d with email := trimStr (lowerStr d.email),
             firstName := trimStr d.firstName,
             lastName := trimStr d.lastName }
    newId hashed now

/-- Serialized form of a user as written to users.json: `JSON.stringify`
first applies `User.toJSON`, which strips `password`, and renders each Date
as its string form. -/
structure StoredUser where
  id : String
  email : String
  firstName : String
  lastName : String
  role : String
  createdAt : String
  updatedAt : String
  isActive : Bool
deriving DecidableEq, Repr

/-- User.toJSON composed with JSON serialization of the record. -/
def User.serialize (u : User) : StoredUser :=
  { id := u.id, email := u.email, firstName := u.firstName,
    lastName := u.lastName, role := u.role,
    createdAt := u.createdAt.serialize, updatedAt := u.updatedAt.serialize,
    isActive := u.isActive }

/-- UserStore.loadFromFile, per record: `Object.create(User.prototype)` then
`Object.assign(user, userData)` — a verbatim field copy. No date field is
re-parsed, so `createdAt`/`updatedAt` come back as strings, and `password`
is absent. -/
def UserStore.rehydrate (r : StoredUser) : User :=
  { id := r.id, email := r.email, password := none,
    firstName := r.firstName, lastName := r.lastName, role := r.role,
    createdAt := .str r.createdAt, updatedAt := .str r.updatedAt,
    isActive := r.isActive }

/-- Serialized form of an event as written to events.json (`Event.toJSON`;
its derived `participantCount`/`availableSpots` outputs are recomputable
inert extras and are omitted here — on reload they become plain own
properties that shadow no method). -/
structure StoredEvent where
  id : String
  title : String
  description : String
  date : String
  time : String
  duration : Int
  maxParticipants : Option Int
  organizerId : String
  participants : List String
  status : String
  category : String
  isPublic : Bool
  meetingLink : Option String
  createdAt : String
  updatedAt : String
deriving DecidableEq, Repr

/-- Event.toJSON composed with JSON serialization of the record. -/
def Event.serialize (e : Event) : StoredEvent :=
  { id := e.id, title := e.title, description := e.description,
    date := e.date.serialize, time := e.time, duration := e.duration,
    maxParticipants := e.maxParticipants, organizerId := e.organizerId,
    participants := e.participants, status := e.status,
    category := e.category, isPublic := e.isPublic,
    meetingLink := e.meetingLink,
    createdAt := e.createdAt.serialize, updatedAt := e.updatedAt.serialize }

/-- EventStore.loadFromFile, per record: verbatim field copy, after which
`date`, `createdAt` and `updatedAt` ARE re-parsed with `new Date(...)` and
`participants` is defaulted to `[]` when absent. -/
def EventStore.rehydrate (r : StoredEvent) : Event :=
  { id := r.id, title := r.title, description := r.description,
    date := .date (parseDateStr r.date), time := r.time,
    duration := r.duration, maxParticipants := r.maxParticipants,
    organizerId := r.organizerId, participants := r.participants,
    status := r.status, category := r.category, isPublic := r.isPublic,
    meetingLink := r.meetingLink,
    createdAt := .date (parseDateStr r.createdAt),
    updatedAt := .date (parseDateStr r.updatedAt) }

/-- Outcome of `jwt.verify` as observed by the middleware: success carrying
the payload's `userId`, a `TokenExpiredError`, a `JsonWebTokenError`
(malformed token or invalid signature), or any other failure. -/
inductive VerifyOutcome where
  | valid (userId : String)
  | expiredErr
  | invalidErr
  | otherErr
deriving DecidableEq, Repr

/-- Response produced by the authentication middleware: either the request
proceeds with the resolved user, or it is rejected with an HTTP status and
the JSON payload's `error` and `message` fields. -/
inductive AuthResult where
  | ok (u : User)
  | reject (status : Nat) (error : String) (message : String)
deriving DecidableEq, Repr

/-- authenticateToken: missing token → 401 'No token provided'; verified
token → look the subject up in the user store and reject 401
'Access denied'/'Invalid token' when absent or inactive; expired → 401
'Token expired'; JsonWebTokenError → 401 'Invalid token'; anything else →
500. The first argument is `none` when no bearer token was supplied. -/
def authenticateToken (tok : Option VerifyOutcome) (users : List User) :
    AuthResult :=
  match tok with
  | none => .reject 401 "Access denied" "No token provided"
  | some (.valid uid) =>
    match UserStore.findById users uid with
    | none => .reject 401 "Access denied" "Invalid token"
    | some u =>
      if u.isActive then .ok u
      else .reject 401 "Access denied" "Invalid token"
  | some .expiredErr => .reject 401 "Access denied" "Token expired"
  | some .invalidErr => .reject 401 "Access denied" "Invalid token"
  | some .otherErr => .reject 500 "Internal server error" "Token verification failed"

/-- Capacity invariant of the spec, under the code's truthiness semantics:
whenever `maxParticipants` is non-null and nonzero (`0` acts as the
"unlimited" sentinel, see `Event.atCapacity`), the participant count stays
within the bound. -/
def Event.capOk (e : Event) : Bool :=
  e.maxParticipants.all
    (fun n => n == 0 || decide ((e.participants.length : Int) ≤ n))

/-- Sample event builder used to instantiate theorems on concrete inputs. -/
def mkEvent (id orgId : String) (mp : Option Int) (parts : List String) :
    Event :=
  { id := id, title := "t", description := "d", date := .date 0,
    time := "10:00", duration := 60, maxParticipants := mp,
    organizerId := orgId, participants := parts, status := "scheduled",
    category := "general", isPublic := true, meetingLink := none,
    createdAt := .date 0, updatedAt := .date 0 }

/-- Sample user builder used to instantiate theorems on concrete inputs. -/
def mkUser (id email : String) (active : Bool := true) : User :=
  { id := id, email := email, password := some "h", firstName := "F",
    lastName := "L", role := "attendee", createdAt := .date 5,
    updatedAt := .date 6, isActive := active }

/-- Helper: under distinct keys, `find?` by an element's key returns exactly
that element. -/
theorem find?_key_eq_of_nodup {α : Type} (key : α → String) :
    ∀ (l : List α), (l.map key).Nodup → ∀ a ∈ l,
    l.find? (fun x => key x == key a) = some a := by
  intro l
  induction l with
  | nil => intro _ a ha; cases ha
  | cons b t ih =>
    intro hnd a ha
    rw [List.map_cons, List.nodup_cons] at hnd
    rcases List.mem_cons.mp ha with rfl | hat
    · exact List.find?_cons_of_pos _ (by simp)
    · have hne : ((fun x => key x == key a) b) = false := by
        refine beq_eq_false_iff_ne.mpr ?_
        intro hEq
        exact hnd.1 (hEq ▸ List.mem_map_of_mem key hat)
      rw [List.find?_cons_of_neg _ (by simp [hne])]
      exact ih hnd.2 a hat

/-- Helper: the output of `setFirstBy` contains only the new element or
elements of the input list. -/
theorem mem_setFirstBy {α : Type} (key : α → String)
    (l : List α) (k : String) (x y : α) :
    y ∈ setFirstBy key l k x → y = x ∨ y ∈ l := by
  induction l with
  | nil => intro h; cases h
  | cons b t ih =>
    intro h
    by_cases hb : key b == k
    · rw [setFirstBy, if_pos hb] at h
      rcases List.mem_cons.mp h with rfl | hyt
      · exact Or.inl rfl
      · exact Or.inr (List.mem_cons_of_mem _ hyt)
    · rw [setFirstBy, if_neg hb] at h
      rcases List.mem_cons.mp h with rfl | hyt
      · exact Or.inr (List.mem_cons_self _ _)
      · rcases ih hyt with h1 | h2
        · exact Or.inl h1
        · exact Or.inr (List.mem_cons_of_mem _ h2)

/-- C1: on an event whose `maxParticipants` is a non-null bound N ≥ 1 and
whose participants list already has length N, `Event.addParticipant` (and
hence `EventStore.registerParticipant`) fails with EventFull for every user
id, and the store's event list is exactly the same after the failed call. -/
theorem register_on_full_event_fails_eventFull
    (events : List Event) (e : Event) (uid : String) (now : Nat) (n : Int)
    (hnd : (events.map Event.id).Nodup) (he : e ∈ events)
    (hmp : e.maxParticipants = some n) (hn : 1 ≤ n)
    (hlen : (e.participants.length : Int) = n) :
    e.addParticipant uid now = .error .eventFull ∧
    EventStore.registerParticipant events e.id uid now
      = (.error .eventFull, events) := by
  have hcap : e.atCapacity = true := by
    simp only [Event.atCapacity, hmp]
    have h1 : n != 0 := by simp; omega
    have h2 : decide (n ≤ (e.participants.length : Int)) = true := by
      simp; omega
    simp [h1, h2]
  have hadd : e.addParticipant uid now = .error .eventFull := by
    simp [Event.addParticipant, hcap]
  have hfind := find?_key_eq_of_nodup Event.id events hnd e he
  refine ⟨hadd, ?_⟩
  simp [EventStore.registerParticipant, hfind, hadd]

/-- Witness for C1 at a concrete full event with bound 2. -/
theorem register_on_full_event_fails_eventFull_witness :
    (mkEvent "e1" "org" (some 2) ["a", "b"]).addParticipant "c" 9
      = .error .eventFull ∧
    EventStore.registerParticipant [mkEvent "e1" "org" (some 2) ["a", "b"]]
        "e1" "c" 9
      = (.error .eventFull, [mkEvent "e1" "org" (some 2) ["a", "b"]]) :=
  register_on_full_event_fails_eventFull
    [mkEvent "e1" "org" (some 2) ["a", "b"]]
    (mkEvent "e1" "org" (some 2) ["a", "b"]) "c" 9 2
    (by decide) (by decide) (by decide) (by decide) (by decide)

/-- C4: for a stored event and any acting user id different from its
organizer id, `EventStore.update` and `EventStore.delete` fail with
Unauthorized and the event list is exactly as before, so the event is still
present with all fields unchanged. -/
theorem nonorganizer_update_delete_unauthorized
    (events : List Event) (e : Event) (p : EventPatch) (a : String)
    (now : Nat)
    (hnd : (events.map Event.id).Nodup) (he : e ∈ events)
    (ha : a ≠ e.organizerId) :
    EventStore.update events e.id p a now = (.error .unauthorized, events) ∧
    EventStore.delete events e.id a = (.error .unauthorized, events) := by
  have hfind := find?_key_eq_of_nodup Event.id events hnd e he
  have ha' : e.organizerId ≠ a := Ne.symm ha
  constructor
  · simp [EventStore.update, hfind, ha']
  · simp [EventStore.delete, hfind, ha']

/-- Witness for C4 at a concrete event and a non-organizer id. -/
theorem nonorganizer_update_delete_unauthorized_witness :
    EventStore.update [mkEvent "e1" "org" none []] "e1"
        { title := some "x" } "eve" 9
      = (.error .unauthorized, [mkEvent "e1" "org" none []]) ∧
    EventStore.delete [mkEvent "e1" "org" none []] "e1" "eve"
      = (.error .unauthorized, [mkEvent "e1" "org" none []]) :=
  nonorganizer_update_delete_unauthorized
    [mkEvent "e1" "org" none []] (mkEvent "e1" "org" none [])
    { title := some "x" } "eve" 9 (by decide) (by decide) (by decide)

/-- C9: a cryptographically valid, unexpired token whose subject resolves to
no stored user, or to a deactivated user, is rejected with exactly the same
outcome (401, error 'Access denied', message 'Invalid token') as a
malformed or invalid-signature token. -/
theorem dangling_token_rejected_like_invalid_token
    (users : List User) (uid : String)
    (h : UserStore.findById users uid = none ∨
      ∃ u, UserStore.findById users uid = some u ∧ u.isActive = false) :
    authenticateToken (some (.valid uid)) users
      = authenticateToken (some .invalidErr) users ∧
    authenticateToken (some (.valid uid)) users
      = .reject 401 "Access denied" "Invalid token" := by
  rcases h with h | ⟨u, hu, hact⟩
  · simp [authenticateToken, h]
  · simp [authenticateToken, hu, hact]

/-- Witness for C9: a token for a deactivated stored user. -/
theorem dangling_token_rejected_like_invalid_token_witness :
    authenticateToken (some (.valid "1")) [mkUser "1" "a@b.c" false]
      = authenticateToken (some .invalidErr) [mkUser "1" "a@b.c" false] ∧
    authenticateToken (some (.valid "1")) [mkUser "1" "a@b.c" false]
      = .reject 401 "Access denied" "Invalid token" :=
  dangling_token_rejected_like_invalid_token [mkUser "1" "a@b.c" false] "1"
    (Or.inr ⟨mkUser "1" "a@b.c" false, by decide, by decide⟩)

/-- C10: an event whose `maxParticipants` field is 0 behaves as unlimited:
`addParticipant` never fails with EventFull (a user id not yet registered is
always admitted) and `getAvailableSpots` returns the null sentinel. -/
theorem zero_maxParticipants_behaves_unlimited
    (e : Event) (uid : String) (now : Nat)
    (h : e.maxParticipants = some 0) :
    e.addParticipant uid now ≠ .error .eventFull ∧
    e.getAvailableSpots = none ∧
    (e.participants.contains uid = false →
      e.addParticipant uid now
        = .ok { e with participants := e.participants ++ [uid],
                       updatedAt := .date now }) := by
  have hcap : e.atCapacity = false := by
    simp [Event.atCapacity, h]
  refine ⟨?_, ?_, ?_⟩
  · by_cases hc : uid ∈ e.participants
    · simp [Event.addParticipant, hcap, hc]
    · simp [Event.addParticipant, hcap, hc]
  · simp [Event.getAvailableSpots, h]
  · intro hc
    have hm : uid ∉ e.participants := by simpa using hc
    simp [Event.addParticipant, hcap, hm]

/-- Witness for C10 at a concrete zero-bound event. -/
theorem zero_maxParticipants_behaves_unlimited_witness :
    (mkEvent "e1" "org" (some 0) ["a"]).addParticipant "b" 9
        ≠ .error .eventFull ∧
    (mkEvent "e1" "org" (some 0) ["a"]).getAvailableSpots = none ∧
    ((mkEvent "e1" "org" (some 0) ["a"]).participants.contains "b" = false →
      (mkEvent "e1" "org" (some 0) ["a"]).addParticipant "b" 9
        = .ok { mkEvent "e1" "org" (some 0) ["a"] with
                  participants :=
                    (mkEvent "e1" "org" (some 0) ["a"]).participants ++ ["b"],
                  updatedAt := .date 9 }) :=
  zero_maxParticipants_behaves_unlimited
    (mkEvent "e1" "org" (some 0) ["a"]) "b" 9 (by decide)

/-- Counterexample to C3: on a full event (bound 1, one participant), a
second registration of the already-registered user fails with EventFull —
the capacity check fires before the duplicate check — not with
AlreadyRegistered as the claim states. -/
theorem full_event_duplicate_register_not_alreadyRegistered :
    (mkEvent "e1" "org" (some 1) ["u1"]).participants.contains "u1" = true ∧
    (mkEvent "e1" "org" (some 1) ["u1"]).addParticipant "u1" 7
      = .error .eventFull ∧
    (mkEvent "e1" "org" (some 1) ["u1"]).addParticipant "u1" 7
      ≠ .error .alreadyRegistered := by decide

/-- C3 (amended): registering an already-registered user fails with
AlreadyRegistered provided the event is not at capacity (at capacity the
capacity check fires first, giving EventFull); unregistering a non-member
fails with NotRegistered; in every such failure the event — participants
list and `updatedAt` included — and the whole store are unchanged. -/
theorem duplicate_register_and_missing_unregister_fail_unchanged
    (events : List Event) (e : Event) (u : String) (now : Nat)
    (hnd : (events.map Event.id).Nodup) (he : e ∈ events) :
    (e.participants.contains u = true → e.atCapacity = false →
      e.addParticipant u now = .error .alreadyRegistered ∧
      EventStore.registerParticipant events e.id u now
        = (.error .alreadyRegistered, events)) ∧
    (e.participants.contains u = false →
      e.removeParticipant u now = .error .notRegistered ∧
      EventStore.unregisterParticipant events e.id u now
        = (.error .notRegistered, events)) := by
  have hfind := find?_key_eq_of_nodup Event.id events hnd e he
  constructor
  · intro hc hcap
    have hm : u ∈ e.participants := by simpa using hc
    have hadd : e.addParticipant u now = .error .alreadyRegistered := by
      simp [Event.addParticipant, hcap, hm]
    exact ⟨hadd, by simp [EventStore.registerParticipant, hfind, hadd]⟩
  · intro hc
    have hm : u ∉ e.participants := by simpa using hc
    have hrem : e.removeParticipant u now = .error .notRegistered := by
      simp [Event.removeParticipant, hm]
    exact ⟨hrem, by simp [EventStore.unregisterParticipant, hfind, hrem]⟩

/-- Witness for the amended C3 at a concrete event: duplicate registration
of "a" (capacity not reached) and unregistration of absent "b". -/
theorem duplicate_register_and_missing_unregister_witness :
    ((mkEvent "e1" "org" (some 3) ["a"]).participants.contains "a" = true →
      (mkEvent "e1" "org" (some 3) ["a"]).atCapacity = false →
      (mkEvent "e1" "org" (some 3) ["a"]).addParticipant "a" 9
        = .error .alreadyRegistered ∧
      EventStore.registerParticipant [mkEvent "e1" "org" (some 3) ["a"]]
          "e1" "a" 9
        = (.error .alreadyRegistered, [mkEvent "e1" "org" (some 3) ["a"]])) ∧
    ((mkEvent "e1" "org" (some 3) ["a"]).participants.contains "b" = false →
      (mkEvent "e1" "org" (some 3) ["a"]).removeParticipant "b" 9
        = .error .notRegistered ∧
      EventStore.unregisterParticipant [mkEvent "e1" "org" (some 3) ["a"]]
          "e1" "b" 9
        = (.error .notRegistered, [mkEvent "e1" "org" (some 3) ["a"]])) :=
  ⟨(duplicate_register_and_missing_unregister_fail_unchanged
      [mkEvent "e1" "org" (some 3) ["a"]] (mkEvent "e1" "org" (some 3) ["a"])
      "a" 9 (by decide) (by decide)).1,
   (duplicate_register_and_missing_unregister_fail_unchanged
      [mkEvent "e1" "org" (some 3) ["a"]] (mkEvent "e1" "org" (some 3) ["a"])
      "b" 9 (by decide) (by decide)).2⟩

/-- Counterexample to C2: an event with unlimited capacity and two
participants satisfies the bound, yet `EventStore.update` accepts a patch
setting `maxParticipants := 1` from the organizer, and in the post-state the
bound `participants.length <= maxParticipants` is violated. -/
theorem update_maxParticipants_can_break_capacity :
    Event.capOk (mkEvent "e1" "org" none ["a", "b"]) = true ∧
    (EventStore.update [mkEvent "e1" "org" none ["a", "b"]] "e1"
        { maxParticipants := some (some 1) } "org" 7).fst
      = .ok ((mkEvent "e1" "org" none ["a", "b"]).update
          { maxParticipants := some (some 1) } 7) ∧
    ((EventStore.update [mkEvent "e1" "org" none ["a", "b"]] "e1"
        { maxParticipants := some (some 1) } "org" 7).snd.all Event.capOk)
      = false := by decide

/-- Helper: a successful `addParticipant` preserves the capacity bound. -/
theorem capOk_of_addParticipant (e e' : Event) (uid : String) (now : Nat)
    (hc : e.capOk = true) (h : e.addParticipant uid now = .ok e') :
    e'.capOk = true := by
  by_cases hcap : e.atCapacity
  · simp [Event.addParticipant, hcap] at h
  · by_cases hm : uid ∈ e.participants
    · simp [Event.addParticipant, hcap, hm] at h
    · simp [Event.addParticipant, hcap, hm] at h
      subst h
      cases hmp : e.maxParticipants with
      | none => simp [Event.capOk, hmp]
      | some n =>
        simp [Event.capOk, hmp] at hc ⊢
        simp [Event.atCapacity, hmp] at hcap
        rcases hc with h0 | hle
        · exact Or.inl h0
        · by_cases h0 : n = 0
          · exact Or.inl h0
          · have hlt := hcap h0
            refine Or.inr ?_
            omega

/-- C2 (amended): the capacity bound (with the code's `0` = unlimited
sentinel) is preserved by `EventStore.registerParticipant` in every case,
and by `Event.update` (hence `EventStore.update`) exactly when the patch
leaves `maxParticipants` absent, sets it to null, or sets it to a value not
below the current participant count; a patch setting a nonzero bound below
the count produces a post-state violating the bound (see the
counterexample). -/
theorem capacity_preserved_register_and_guarded_update :
    (∀ (events : List Event) (eid uid : String) (now : Nat),
      (∀ e ∈ events, e.capOk = true) →
      ∀ e' ∈ (EventStore.registerParticipant events eid uid now).snd,
        e'.capOk = true) ∧
    (∀ (e : Event) (p : EventPatch) (now : Nat),
      e.capOk = true →
      (∀ m : Int, p.maxParticipants = some (some m) → m ≠ 0 →
        (e.participants.length : Int) ≤ m) →
      (e.update p now).capOk = true) := by
  constructor
  · intro events eid uid now hall e' he'
    cases hfind : events.find? (fun ev => ev.id == eid) with
    | none =>
      have hsnd : (EventStore.registerParticipant events eid uid now).snd
          = events := by
        simp [EventStore.registerParticipant, hfind]
      rw [hsnd] at he'
      exact hall e' he'
    | some e =>
      cases hadd : e.addParticipant uid now with
      | error err =>
        have hsnd : (EventStore.registerParticipant events eid uid now).snd
            = events := by
          simp [EventStore.registerParticipant, hfind, hadd]
        rw [hsnd] at he'
        exact hall e' he'
      | ok e1 =>
        have hsnd : (EventStore.registerParticipant events eid uid now).snd
            = setFirstBy Event.id events eid e1 := by
          simp [EventStore.registerParticipant, hfind, hadd]
        rw [hsnd] at he'
        rcases mem_setFirstBy Event.id events eid e1 e' he' with rfl | hmem
        · exact capOk_of_addParticipant e e' uid now
            (hall e (List.mem_of_find?_eq_some hfind)) hadd
        · exact hall e' hmem
  · intro e p now hc hguard
    cases hpm : p.maxParticipants with
    | none => simpa [Event.capOk, Event.update, hpm] using hc
    | some mpv =>
      cases mpv with
      | none => simp [Event.capOk, Event.update, hpm]
      | some m =>
        simp [Event.capOk, Event.update, hpm]
        by_cases hm0 : m = 0
        · exact Or.inl hm0
        · exact Or.inr (hguard m hpm hm0)

/-- Witness for the amended C2: a guarded update that raises the bound on a
concrete event keeps the capacity invariant. -/
theorem capacity_preserved_register_and_guarded_update_witness :
    Event.capOk ((mkEvent "e1" "org" none ["a"]).update
      { maxParticipants := some (some 5) } 9) = true :=
  capacity_preserved_register_and_guarded_update.2
    (mkEvent "e1" "org" none ["a"]) { maxParticipants := some (some 5) } 9
    (by decide)
    (by intro m hm hmn; simp at hm; subst hm; decide)

/-- Helper: in a collection whose emails are pairwise distinct
case-insensitively, the scan of `findByEmail` can only stop at the one user
whose lowercased email matches. -/
theorem findByEmail_first :
    ∀ (users : List User),
    users.Pairwise (fun a b => lowerStr a.email ≠ lowerStr b.email) →
    ∀ u ∈ users, ∀ e : String, lowerStr e = lowerStr u.email →
    UserStore.findByEmail users e = some u := by
  intro users
  induction users with
  | nil => intro _ u hu; cases hu
  | cons b t ih =>
    intro hp u hu e he
    rw [List.pairwise_cons] at hp
    rcases List.mem_cons.mp hu with rfl | hut
    · unfold UserStore.findByEmail
      exact List.find?_cons_of_pos _ (by simp [he])
    · have hne : lowerStr b.email ≠ lowerStr u.email := hp.1 u hut
      have hstep : UserStore.findByEmail (b :: t) e
          = UserStore.findByEmail t e := by
        unfold UserStore.findByEmail
        exact List.find?_cons_of_neg _ (by simp [he]; exact hne)
      rw [hstep]
      exact ih hp.2 u hut e he

/-- C5: in any collection whose stored emails are pairwise distinct
case-insensitively (as produced by a sequence of successful `create`
calls — the third conjunct shows `create` preserves that property from the
empty store up), `findByEmail` on any case-variant of a stored email
returns exactly that user, and a `create` whose email matches a stored one
case-insensitively fails with DuplicateKey leaving the collection
unchanged. -/
theorem findByEmail_case_variant_and_duplicate_create
    (users : List User) (u : User) (e : String)
    (hdist : users.Pairwise (fun a b => lowerStr a.email ≠ lowerStr b.email))
    (hu : u ∈ users) (he : lowerStr e = lowerStr u.email) :
    UserStore.findByEmail users e = some u ∧
    (∀ (d : UserData) (newId hashed : String) (now : Nat),
      lowerStr d.email = lowerStr u.email →
      UserStore.create users d newId hashed now
        = (.error .duplicateKey, users)) ∧
    (∀ (d : UserData) (newId hashed : String) (now : Nat) (u' : User)
        (users' : List User),
      UserStore.create users d newId hashed now = (.ok u', users') →
      users'.Pairwise (fun a b => lowerStr a.email ≠ lowerStr b.email)) := by
  refine ⟨findByEmail_first users hdist u hu e he, ?_, ?_⟩
  · intro d newId hashed now hd
    have hsome : (users.find?
        (fun v => lowerStr v.email == lowerStr d.email)).isSome := by
      rw [List.find?_isSome]
      exact ⟨u, hu, by simp [hd]⟩
    obtain ⟨w, hw⟩ := Option.isSome_iff_exists.mp hsome
    simp [UserStore.create, hw]
  · intro d newId hashed now u' users' hcr
    cases hfind : users.find?
        (fun v => lowerStr v.email == lowerStr d.email) with
    | some w => simp [UserStore.create, hfind] at hcr
    | none =>
      simp [UserStore.create, hfind] at hcr
      obtain ⟨hu', husers'⟩ := hcr
      subst husers'
      rw [List.pairwise_append]
      refine ⟨hdist, by simp, ?_⟩
      intro a ha b hb
      have hb1 : b.email = d.email := by
        rcases List.mem_singleton.mp hb with rfl
        rfl
      rw [hb1]
      have := List.find?_eq_none.mp hfind a ha
      simpa using this

/-- Witness for C5 with a single stored mixed-case email and its lowercase
variant. -/
theorem findByEmail_case_variant_and_duplicate_create_witness :
    UserStore.findByEmail [mkUser "1" "Test@Example.com"] "test@example.com"
      = some (mkUser "1" "Test@Example.com") ∧
    UserStore.create [mkUser "1" "Test@Example.com"]
        { email := "test@example.com", password := "p",
          firstName := "F", lastName := "L" } "2" "h" 9
      = (.error .duplicateKey, [mkUser "1" "Test@Example.com"]) :=
  ⟨(findByEmail_case_variant_and_duplicate_create
      [mkUser "1" "Test@Example.com"] (mkUser "1" "Test@Example.com")
      "test@example.com" (by simp) (by decide) (by decide)).1,
   (findByEmail_case_variant_and_duplicate_create
      [mkUser "1" "Test@Example.com"] (mkUser "1" "Test@Example.com")
      "test@example.com" (by simp) (by decide) (by decide)).2.1
     { email := "test@example.com", password := "p",
       firstName := "F", lastName := "L" } "2" "h" 9 (by decide)⟩

/-- Counterexample to C6: `UserStore.create` stores the email exactly as
given — a mixed-case input stays mixed-case, not lowercased. -/
theorem create_stores_email_verbatim_not_lowercased :
    ((UserStore.create []
        { email := "Test@Example.com", password := "p",
          firstName := "F", lastName := "L" } "1" "h" 0).snd.map User.email)
      = ["Test@Example.com"] ∧
    lowerStr "Test@Example.com" = "test@example.com" ∧
    "Test@Example.com" ≠ "test@example.com" := by decide

/-- Helper: a successful `UserStore.create` stores the input email
verbatim. -/
theorem create_ok_email (users : List User) (d : UserData)
    (newId hashed : String) (now : Nat) (u : User) (users' : List User)
    (h : UserStore.create users d newId hashed now = (.ok u, users')) :
    u.email = d.email := by
  cases hfind : users.find?
      (fun v => lowerStr v.email == lowerStr d.email) with
  | some w => simp [UserStore.create, hfind] at h
  | none =>
    simp [UserStore.create, hfind] at h
    obtain ⟨hu, _⟩ := h
    subst hu
    rfl

/-- C6 (amended): the stored email equals the input email verbatim at the
`UserStore.create` level; lowercase normalization is performed by the
register controller (`email.toLowerCase().trim()`) before it calls
`create`, so users created through the register endpoint do get the
lowercased (trimmed) form. -/
theorem create_email_verbatim_controller_lowercases :
    (∀ (users : List User) (d : UserData) (newId hashed : String)
        (now : Nat) (u : User) (users' : List User),
      UserStore.create users d newId hashed now = (.ok u, users') →
      u.email = d.email) ∧
    (∀ (users : List User) (d : UserData) (newId hashed : String)
        (now : Nat) (u : User) (users' : List User),
      AuthController.registerCreate users d newId hashed now
        = (.ok u, users') →
      u.email = trimStr (lowerStr d.email)) := by
  constructor
  · intro users d newId hashed now u users' h
    exact create_ok_email users d newId hashed now u users' h
  · intro users d newId hashed now u users' h
    unfold AuthController.registerCreate at h
    exact create_ok_email users _ newId hashed now u users' h

/-- Witness for the amended C6: the register-controller path stores the
lowercase form of a mixed-case input. -/
theorem create_email_verbatim_controller_lowercases_witness :
    ({ id := "1", email := "test@example.com", password := some "h",
       firstName := "F", lastName := "L", role := "attendee",
       createdAt := .date 0, updatedAt := .date 0,
       isActive := true } : User).email
      = trimStr (lowerStr "Test@Example.com") :=
  create_email_verbatim_controller_lowercases.2 []
    { email := "Test@Example.com", password := "p",
      firstName := "F", lastName := "L" } "1" "h" 0
    { id := "1", email := "test@example.com", password := some "h",
      firstName := "F", lastName := "L", role := "attendee",
      createdAt := .date 0, updatedAt := .date 0, isActive := true }
    [{ id := "1", email := "test@example.com", password := some "h",
       firstName := "F", lastName := "L", role := "attendee",
       createdAt := .date 0, updatedAt := .date 0, isActive := true }]
    (by decide)

/-- Counterexample to C7: with a single stored user (no other user at all),
updating that user's email to a case-variant of their own current email
fails with DuplicateKey — the duplicate scan does not exclude the user
themself — instead of succeeding as the claim states. -/
theorem update_own_email_case_variant_fails_duplicate :
    (UserStore.update [mkUser "1" "A@b.c"] "1"
        { email := some "a@b.c" } 7).fst = .error .duplicateKey ∧
    (UserStore.update [mkUser "1" "A@b.c"] "1"
        { email := some "a@b.c" } 7).snd = [mkUser "1" "A@b.c"] ∧
    lowerStr "a@b.c" = lowerStr (mkUser "1" "A@b.c").email ∧
    "a@b.c" ≠ (mkUser "1" "A@b.c").email := by decide

/-- C7 (amended): for a stored user and a truthy new email differing from
the current one as an exact string, `UserStore.update` fails with
DuplicateKey if and only if SOME user of the collection — the subject
themself included — has an email case-insensitively equal to the new one
(so updating to a case-variant of one's own email fails), and the failing
call leaves the collection unchanged. -/
theorem update_email_duplicate_iff_any_match
    (users : List User) (u : User) (e : String) (now : Nat)
    (hfind : users.find? (fun v => v.id == u.id) = some u)
    (hne : e ≠ "") (hdiff : e ≠ u.email) :
    ((UserStore.update users u.id { email := some e } now).fst
        = .error .duplicateKey
      ↔ ∃ v ∈ users, lowerStr v.email = lowerStr e) ∧
    ((UserStore.update users u.id { email := some e } now).fst
        = .error .duplicateKey →
      (UserStore.update users u.id { email := some e } now).snd
        = users) := by
  cases hdup : users.find? (fun v => lowerStr v.email == lowerStr e) with
  | some w =>
    have hres : UserStore.update users u.id { email := some e } now
        = (.error .duplicateKey, users) := by
      simp [UserStore.update, hfind, hne, hdiff, hdup]
    rw [hres]
    refine ⟨⟨fun _ => ⟨w, List.mem_of_find?_eq_some hdup, ?_⟩, fun _ => rfl⟩,
            fun _ => rfl⟩
    have := List.find?_some hdup
    simpa using this
  | none =>
    have hres : UserStore.update users u.id { email := some e } now
        = (.ok (u.update { email := some e } now),
           setFirstBy User.id users u.id (u.update { email := some e } now))
        := by
      simp [UserStore.update, hfind, hne, hdiff, hdup]
    rw [hres]
    constructor
    · constructor
      · intro habs
        simp at habs
      · rintro ⟨v, hv, hveq⟩
        have := List.find?_eq_none.mp hdup v hv
        simp [hveq] at this
    · intro habs
      simp at habs

/-- Witness for the amended C7: a second stored user holds a case-variant
of the new email, so the update fails with DuplicateKey. -/
theorem update_email_duplicate_iff_any_match_witness :
    (UserStore.update [mkUser "1" "a@b.c", mkUser "2" "x@y.z"] "1"
        { email := some "X@Y.Z" } 9).fst = .error .duplicateKey :=
  (update_email_duplicate_iff_any_match
      [mkUser "1" "a@b.c", mkUser "2" "x@y.z"] (mkUser "1" "a@b.c")
      "X@Y.Z" 9 (by decide) (by decide) (by decide)).1.mpr
    ⟨mkUser "2" "x@y.z", by decide, by decide⟩

/-- C8 (code divergence): a persisted-then-reloaded user keeps its
`createdAt` as the serialized STRING — `UserStore.loadFromFile` copies
fields verbatim and never re-parses date fields — whereas the original held
a date value, so the reloaded collection is not observably identical; the
sibling `EventStore.loadFromFile` does re-parse its date fields and
round-trips exactly. -/
theorem user_rehydrate_leaves_date_strings :
    (UserStore.rehydrate (User.serialize (mkUser "1" "a@b.c"))).createdAt
      = DateVal.str "5" ∧
    (mkUser "1" "a@b.c").createdAt = DateVal.date 5 ∧
    UserStore.rehydrate (User.serialize (mkUser "1" "a@b.c"))
      ≠ mkUser "1" "a@b.c" ∧
    EventStore.rehydrate (Event.serialize (mkEvent "e1" "org" (some 2) ["a"]))
      = mkEvent "e1" "org" (some 2) ["a"] := by decide
